import Mathlib

/-!
Verification of the surface-detection core of the AR restaurant-menu demo.

The source is a React/TypeScript application; we shallowly embed the three
surface-detector variants and the placement gates:

* the vision-heuristic detector `detectSurfaces` (Sobel edge magnitude +
  texture variance over a 16-px grid) and the tap handler
  `handleScreenTouch` from `SimpleCameraAR_20250715154843.tsx`;
* the motion-heuristic state machine (acceleration-magnitude history,
  stability score, throttled surface-quality updates, orientation bonus)
  from the same file's motion-based revision;
* the native WebXR plane bookkeeping (`startARSession` frame callback and
  `placeItem`) from the WebXR component.

Modelling conventions:
* JS numbers are modelled as exact rationals (`ℚ`).  Every property proved
  here is robust to double rounding: the branch predicates compared are
  integer-valued or bounded away from the thresholds involved.
* `Math.sqrt s < c` (with `s, c ≥ 0`) is embedded as the equivalent
  comparison `s < c^2` of the radicand against the squared threshold,
  avoiding a noncomputable square root; `Math.sqrt` is strictly monotone
  and exact on the perfect squares involved, so the branch taken is
  identical.  Where a square root is only stored (the vision point's
  `depth = 1 - sqrt(magSq)/255`, the motion sample's magnitude) we carry
  the radicand (`magSq`, `mag`) as data instead.
* Arrays read by index become total functions `ℕ → ℕ`; stateful React
  code becomes explicit state passing (one step function per event).
-/

/-! ## Data model -/

/-- Menu item record (`types` / `menuData.ts`): the fields the AR
components read. -/
structure MenuItem where
  name : String
  price : ℚ
  category : String
deriving DecidableEq

/-- `SurfacePoint` of the vision variant: normalized coordinates and
confidence.  The source also stores `depth = 1 - magnitude/255`; we carry
the squared Sobel magnitude `magSq` (an integer), from which the source's
`depth` is the derived value `1 - sqrt magSq / 255` (never read
downstream). -/
structure SurfacePoint where
  x : ℚ
  y : ℚ
  confidence : ℚ
  magSq : ℤ
deriving DecidableEq

/-- `PlacedItem` of the camera variants: the source's `id` is the string
of `Date.now()`; we keep the numeric timestamp. -/
structure PlacedItem where
  id : ℕ
  item : MenuItem
  posX : ℚ
  posY : ℚ
  scale : ℚ
  rotation : ℚ
  timestamp : ℕ
deriving DecidableEq

/-! ## Vision-heuristic detector (`detectSurfaces`) -/

/-- Grayscale conversion plus the `Uint8Array` store: the source computes
`0.299*R + 0.587*G + 0.114*B` from the RGBA buffer and assigns it to a
`Uint8Array` cell, which truncates toward zero and reduces mod 256.
Truncating the nonnegative value `(299*R + 587*G + 114*B)/1000` is the
natural-number quotient by 1000. -/
def grayAt (data : ℕ → ℕ) (p : ℕ) : ℕ :=
  ((299 * data (4 * p) + 587 * data (4 * p + 1) + 114 * data (4 * p + 2)) / 1000) % 256

/-- Grid coordinates visited by `for (v = 16; v < dim - 16; v += 16)`:
the multiples of 16 in `[16, dim - 16)`, in increasing order. -/
def gridCoords (dim : ℕ) : List ℕ :=
  (List.range dim).filter fun v => decide (16 ≤ v ∧ v < dim - 16 ∧ v % 16 = 0)

/-- Offsets `-8, -4, 0, 4, 8` of the texture-variance sampling loops. -/
def sampleOffsets : List ℤ := [-8, -4, 0, 4, 8]

/-- The per-grid-point body of `detectSurfaces`: Sobel X/Y on the eight
immediate pixel neighbours, the `magnitude < 30` edge test (embedded as
`magSq < 900`), the texture-variance test and the confidence formula.
`g` is the grayscale buffer. -/
def pointAt (w h : ℕ) (g : ℕ → ℤ) (x y : ℕ) : Option SurfacePoint :=
  let idx := y * w + x
  let gx : ℤ := -g (idx - w - 1) + g (idx - w + 1) +
    (-2) * g (idx - 1) + 2 * g (idx + 1) +
    -g (idx + w - 1) + g (idx + w + 1)
  let gy : ℤ := -g (idx - w - 1) + (-2) * g (idx - w) + -g (idx - w + 1) +
    g (idx + w - 1) + 2 * g (idx + w) + g (idx + w + 1)
  let magSq := gx ^ 2 + gy ^ 2
  if magSq < 900 then
    let samples := (sampleOffsets.flatMap fun dy => sampleOffsets.map fun dx =>
      ((y : ℤ) + dy) * w + ((x : ℤ) + dx)).filter fun si =>
        decide (0 ≤ si ∧ si < (w : ℤ) * h)
    let tv : ℚ := ((samples.map fun si => |g si.toNat - g idx|).sum : ℤ) /
      (samples.length : ℚ)
    if tv < 20 then
      some ⟨(x : ℚ) / w, (y : ℚ) / h, max 0 (min 1 ((40 - tv) / 40)), magSq⟩
    else none
  else none

/-- `detectSurfaces(imageData)`: scan the 16-px grid (outer loop `y`,
inner loop `x`), pushing the accepted points. -/
def detectSurfaces (w h : ℕ) (data : ℕ → ℕ) : List SurfacePoint :=
  let g : ℕ → ℤ := fun i => (grayAt data i : ℤ)
  (gridCoords h).flatMap fun y => (gridCoords w).filterMap fun x => pointAt w h g x y

/-- Aggregate confidence of `processFrame`: mean of the per-point
confidences, `0` for an empty detection. -/
def avgConfidence (pts : List SurfacePoint) : ℚ :=
  if pts.length > 0 then (pts.map SurfacePoint.confidence).sum / pts.length else 0

/-- The `surfacePoints.some(...)` test of `handleScreenTouch`: some point
within normalized distance `0.1` of the touch (embedded as squared
distance `< 1/100`) whose confidence exceeds `0.5`. -/
def nearSurfaceB (pts : List SurfacePoint) (tx ty : ℚ) : Bool :=
  pts.any fun p =>
    decide ((p.x - tx) ^ 2 + (p.y - ty) ^ 2 < 1 / 100) && decide (1 / 2 < p.confidence)

/-- `handleScreenTouch` of the vision variant: reject when the aggregate
confidence is below `0.4`, otherwise accept only a tap near a confident
surface point.  `rot` stands for the `Math.random() * 360` rotation and
`nowId` for `Date.now()`. -/
def handleScreenTouch (conf : ℚ) (pts : List SurfacePoint)
    (clientX clientY rectLeft rectTop rectW rectH : ℚ)
    (sel : MenuItem) (nowId : ℕ) (rot : ℚ)
    (placed : List PlacedItem) : List PlacedItem :=
  if conf < 2 / 5 then placed
  else
    let x := (clientX - rectLeft) / rectW * 100
    let y := (clientY - rectTop) / rectH * 100
    if nearSurfaceB pts (x / 100) (y / 100) then
      placed ++ [⟨nowId, sel, x, y, 1, rot, nowId⟩]
    else placed

/-! ### Synthetic frames used by the testable properties -/

/-- A constant-colour RGBA frame (alpha 255, unused by the grayscale
conversion). -/
def uniformData (c : ℕ) : ℕ → ℕ := fun i => if i % 4 = 3 then 255 else c

/-- A 48×48 one-pixel checkerboard frame: every pair of adjacent pixels
holds the two maximally different grayscale values 0 and 255. -/
def checker48 : ℕ → ℕ := fun i =>
  if i % 4 = 3 then 255 else (if ((i / 4) % 48 + (i / 4) / 48) % 2 = 0 then 255 else 0)

/-- Vertical stripes of width 16 alternating between grayscale 0 and 255,
aligned so that every sampled grid point (an `x` that is a positive
multiple of 16) sits exactly on a maximal-contrast step edge. -/
def stripeData (w : ℕ) : ℕ → ℕ := fun i =>
  if i % 4 = 3 then 255 else 255 * ((i / 4 % w) / 16 % 2)

/-! ## Motion-heuristic detector -/

/-- One `devicemotion` event with non-null axes.  `mag` carries the
magnitude `Math.sqrt(x² + y² + z²)` that the listener pushes into the
rolling history (kept as data because the square root of a rational need
not be rational; every theorem below holds for all values of `mag`).
`t` is `Date.now()` at the event. -/
structure AccelSample where
  x : ℚ
  y : ℚ
  z : ℚ
  mag : ℚ
  t : ℤ
deriving DecidableEq

/-- One `deviceorientation` event with non-null `beta`/`gamma` (the
source skips events with null axes; `alpha` is unused). -/
structure OrientSample where
  beta : ℚ
  gamma : ℚ
deriving DecidableEq

/-- The mutable state of the motion-based detector: the rolling
`motionHistory`, `lastMotionTime`, and the `deviceStability` and
`surfaceQuality` React state. -/
structure MotionState where
  history : List ℚ
  lastMotionTime : ℤ
  stability : ℚ
  surfaceQuality : ℚ
deriving DecidableEq

/-- `motionHistory.push(m); if (length > 10) shift()`. -/
def pushHistory (h : List ℚ) (m : ℚ) : List ℚ :=
  let h' := h ++ [m]
  if 10 < h'.length then h'.tail else h'

/-- The listener's mean of the history (`reduce((a,b) => a+b) / length`). -/
def meanOf (l : List ℚ) : ℚ := l.sum / l.length

/-- The listener's variance of the history (population variance). -/
def varianceOf (l : List ℚ) : ℚ :=
  (l.map fun v => (v - meanOf l) ^ 2).sum / l.length

/-- `stability = Math.max(0, Math.min(100, 100 - variance * 10))`. -/
def stabilityOf (l : List ℚ) : ℚ :=
  max 0 (min 100 (100 - varianceOf l * 10))

/-- Modelled from the spec: the population variance of the history,
written as the spec's formula `variance = (1/n) Σ (xᵢ − mean)²`, to be
compared with the listener's computation. -/
def popVariance (l : List ℚ) : ℚ :=
  (l.map fun v => (v - l.sum / l.length) ^ 2).sum / l.length

/-- The qualifying test of the throttled tick: `isStable && isPointingDown
&& hasGoodAngle`. -/
def qualifiesB (stab x y z : ℚ) : Bool :=
  decide (70 < stab) && decide (8 < |z|) && decide (|x| < 3) && decide (|y| < 3)

/-- One `devicemotion` event: push the magnitude, recompute stability,
and, when more than 100 ms have passed since the last gating update,
adjust `surfaceQuality` by +5 (qualifying) or −2 (disqualifying). -/
def motionStep (st : MotionState) (s : AccelSample) : MotionState :=
  let hist := pushHistory st.history s.mag
  let stab := stabilityOf hist
  if 100 < s.t - st.lastMotionTime then
    if qualifiesB stab s.x s.y s.z then
      ⟨hist, s.t, stab, min 100 (st.surfaceQuality + 5)⟩
    else
      ⟨hist, s.t, stab, max 0 (st.surfaceQuality - 2)⟩
  else ⟨hist, st.lastMotionTime, stab, st.surfaceQuality⟩

/-- One `deviceorientation` event: the independent +2 bonus when the
device is held flat-ish and stability exceeds 70. -/
def orientStep (st : MotionState) (o : OrientSample) : MotionState :=
  if |o.beta - 90| < 30 ∧ |o.gamma| < 30 ∧ 70 < st.stability then
    { st with surfaceQuality := min 100 (st.surfaceQuality + 2) }
  else st

/-- A sensor event is a motion sample or an orientation sample. -/
def MotionEvent := Sum AccelSample OrientSample

/-- Dispatch one sensor event to its listener. -/
def motionEventStep (st : MotionState) (e : MotionEvent) : MotionState :=
  match e with
  | Sum.inl a => motionStep st a
  | Sum.inr o => orientStep st o

/-- Run the motion detector from its initial state (`motionHistory = []`,
`deviceStability = 0`, `surfaceQuality = 0`, `lastMotionTime` the setup
time `t0`) over a sequence of sensor events. -/
def runMotion (t0 : ℤ) (evs : List MotionEvent) : MotionState :=
  evs.foldl motionEventStep ⟨[], t0, 0, 0⟩

/-- `handleScreenTouch` of the motion variant: reject unless a surface is
detected and calibration is over. -/
def motionHandleScreenTouch (surfaceDetected isCalibrating : Bool)
    (clientX clientY rectLeft rectTop rectW rectH : ℚ)
    (sel : MenuItem) (nowId : ℕ) (rot : ℚ)
    (placed : List PlacedItem) : List PlacedItem :=
  if !surfaceDetected || isCalibrating then placed
  else
    placed ++ [⟨nowId, sel, (clientX - rectLeft) / rectW * 100,
      (clientY - rectTop) / rectH * 100, 1, rot, nowId⟩]

/-! ## Native WebXR variant -/

/-- A 3-vector of scene coordinates. -/
structure Vec3 where
  x : ℚ
  y : ℚ
  z : ℚ
deriving DecidableEq

/-- One native plane observation delivered by an `XRFrame`: the plane's
native identity (`dp.plane === plane` in the source, modelled by a
numeric id) plus the centre, normal and polygon bounds already extracted
from its pose. -/
structure PlaneObs where
  pid : ℕ
  center : Vec3
  normal : Vec3
  boundsW : ℚ
  boundsH : ℚ
deriving DecidableEq

/-- The `DetectedPlane` bookkeeping record.  The source also stores a
random display `id` string, which nothing reads; `planeId` is the native
identity used by the lookup. -/
structure DetectedPlane where
  planeId : ℕ
  center : Vec3
  normal : Vec3
  boundsW : ℚ
  boundsH : ℚ
  confidence : ℚ
  lastUpdated : ℤ
deriving DecidableEq

/-- Per-observation bookkeeping from the frame callback: look the plane
up in the tracked set; if unseen create it with confidence 1.0, else
update its pose data, bump confidence by +0.1 capped at 1.0, and refresh
`lastUpdated`. -/
def updatePlane (prior : List DetectedPlane) (o : PlaneObs) (now : ℤ) : DetectedPlane :=
  match prior.find? fun dp => dp.planeId == o.pid with
  | none => ⟨o.pid, o.center, o.normal, o.boundsW, o.boundsH, 1, now⟩
  | some dp =>
    { dp with
      center := o.center
      normal := o.normal
      boundsW := o.boundsW
      boundsH := o.boundsH
      confidence := min (dp.confidence + 1 / 10) 1
      lastUpdated := now }

/-- The expiry test of the frame callback:
`Date.now() - plane.lastUpdated < 5000 && plane.confidence > 0.3`. -/
def planeValid (now : ℤ) (p : DetectedPlane) : Bool :=
  decide (now - p.lastUpdated < 5000 ∧ 3 / 10 < p.confidence)

/-- One frame of plane bookkeeping: build `newPlanes` from this frame's
reported observations (each looked up against the previously tracked
set), then keep the ones passing the expiry test.  The result replaces
the tracked set wholesale (`setDetectedPlanes(validPlanes)`). -/
def processPlanes (prior : List DetectedPlane) (obss : List PlaneObs) (now : ℤ) :
    List DetectedPlane :=
  ((obss.map fun o => updatePlane prior o now).filter (planeValid now))

/-- The plane sets reachable by the session: empty at session start (and
after session end), then one `processPlanes` frame at a time. -/
inductive PlanesReachable : List DetectedPlane → Prop
  | nil : PlanesReachable []
  | frame {ps : List DetectedPlane} (h : PlanesReachable ps)
      (obss : List PlaneObs) (now : ℤ) : PlanesReachable (processPlanes ps obss now)

/-- A placed native item: the record appended by `placeItem` (mesh
geometry and materials are rendering details; we keep the placement
position and the optional plane normal the model was aligned to). -/
structure ARItem where
  id : ℕ
  item : MenuItem
  pos : Vec3
  alignedNormal : Option Vec3
deriving DecidableEq

/-- Squared distance between two 3-vectors (`Vector3.distanceTo`,
embedded as the squared comparison). -/
def vdistSq (a b : Vec3) : ℚ :=
  (a.x - b.x) ^ 2 + (a.y - b.y) ^ 2 + (a.z - b.z) ^ 2

/-- `placeItem` of the native variant: bail out unless the session is
active, the reticle is visible and the model is loaded; otherwise place
the model 0.02 above the reticle, aligned to the normal of a tracked
plane whose centre lies within 0.5 scene units of the reticle (squared
distance `< 1/4`), if any. -/
def placeItem (sessionActive reticleVisible objLoaded : Bool)
    (reticlePos : Vec3) (planes : List DetectedPlane)
    (sel : MenuItem) (nowId : ℕ) (items : List ARItem) : List ARItem :=
  if !sessionActive || !reticleVisible || !objLoaded then items
  else
    let pos : Vec3 := ⟨reticlePos.x, reticlePos.y + 1 / 50, reticlePos.z⟩
    let target := planes.find? fun p => decide (vdistSq p.center reticlePos < 1 / 4)
    items ++ [⟨nowId, sel, pos, target.map DetectedPlane.normal⟩]

/-- A sample menu item, used as a concrete instantiation. -/
def mi0 : MenuItem := ⟨"Truffle Risotto", 28, "Main Course"⟩

/-- A tracked plane with confidence 1/2, for the C7 witness. -/
def planeHalf : DetectedPlane := ⟨5, ⟨0, 0, 0⟩, ⟨0, 1, 0⟩, 1, 1, 1 / 2, 0⟩

/-- An observation re-reporting `planeHalf`, for the C7 witness. -/
def obs5 : PlaneObs := ⟨5, ⟨1, 0, 0⟩, ⟨0, 1, 0⟩, 2, 2⟩

/-- A plane removed on a frame evaluation although it is neither older
than 5000 ms nor below confidence 0.3, for the C8 counterexample. -/
def stalePlane : DetectedPlane := ⟨0, ⟨0, 0, 0⟩, ⟨0, 1, 0⟩, 1, 1, 1, 900⟩

/-! ### Sanity checks -/

set_option maxRecDepth 4000

example : gridCoords 48 = [16] := by decide
example : detectSurfaces 48 48 (uniformData 100) = [⟨1/3, 1/3, 1, 0⟩] := by
  with_unfolding_all decide

/-! ## Theorems -/

/-- C1: a tap arriving while the gate of its variant does not pass
(vision: aggregate confidence below 0.4, or the tap not within
normalized distance 0.1 of a point with confidence above 0.5; native:
reticle not visible; motion: no surface detected or still calibrating)
leaves the placed-item list unchanged.  All three handlers are total
functions, so no error is raised. -/
theorem spec_c1 (conf : ℚ) (pts : List SurfacePoint)
    (clientX clientY rectLeft rectTop rectW rectH : ℚ) (sel : MenuItem)
    (nid : ℕ) (rot : ℚ) (placed : List PlacedItem)
    (sessionActive objLoaded : Bool) (reticlePos : Vec3)
    (planes : List DetectedPlane) (items : List ARItem)
    (surfaceDetected isCalibrating : Bool) :
    ((conf < 2 / 5 ∨
        nearSurfaceB pts ((clientX - rectLeft) / rectW * 100 / 100)
          ((clientY - rectTop) / rectH * 100 / 100) = false) →
      handleScreenTouch conf pts clientX clientY rectLeft rectTop rectW rectH
        sel nid rot placed = placed) ∧
    placeItem sessionActive false objLoaded reticlePos planes sel nid items = items ∧
    ((surfaceDetected = false ∨ isCalibrating = true) →
      motionHandleScreenTouch surfaceDetected isCalibrating clientX clientY
        rectLeft rectTop rectW rectH sel nid rot placed = placed) := by
  refine ⟨fun hgate => ?_, ?_, fun hm => ?_⟩
  · unfold handleScreenTouch
    rcases hgate with hc | hn
    · rw [if_pos hc]
    · simp only [hn, Bool.false_eq_true, if_false]
      rw [ite_self]
  · simp [placeItem]
  · rcases hm with hm | hm <;> simp [motionHandleScreenTouch, hm]

/-- Witness for C1: concrete rejected taps in each variant. -/
theorem spec_c1_witness :
    handleScreenTouch 0 [] 0 0 0 0 1 1 mi0 0 0 [] = [] ∧
    placeItem true false true ⟨0, 0, 0⟩ [] mi0 0 [] = [] ∧
    motionHandleScreenTouch false false 0 0 0 0 1 1 mi0 0 0 [] = [] := by
  obtain ⟨h1, h2, h3⟩ := spec_c1 0 [] 0 0 0 0 1 1 mi0 0 0 [] true true
    ⟨0, 0, 0⟩ [] [] false false
  exact ⟨h1 (Or.inl (by norm_num)), h2, h3 (Or.inl rfl)⟩

/-- Every single sensor event keeps `surfaceQuality` inside `[0, 100]`. -/
theorem motionEventStep_quality_mem (st : MotionState) (e : MotionEvent)
    (h0 : 0 ≤ st.surfaceQuality) (h1 : st.surfaceQuality ≤ 100) :
    0 ≤ (motionEventStep st e).surfaceQuality ∧
      (motionEventStep st e).surfaceQuality ≤ 100 := by
  cases e with
  | inl a =>
    simp only [motionEventStep, motionStep]
    split_ifs
    · exact ⟨le_min (by norm_num) (by linarith), min_le_left _ _⟩
    · exact ⟨le_max_left _ _, max_le (by norm_num) (by linarith)⟩
    · exact ⟨h0, h1⟩
  | inr o =>
    simp only [motionEventStep, orientStep]
    split_ifs
    · exact ⟨le_min (by norm_num) (by linarith), min_le_left _ _⟩
    · exact ⟨h0, h1⟩

/-- C4: for every sequence of motion and orientation samples,
`surfaceQuality` remains in `[0, 100]` after every update (each of the
+5, −2 and +2 steps is clamped into the interval, starting from 0).
Arbitrary event lists include every prefix, so the bound holds after
every intermediate update as well. -/
theorem spec_c4 (t0 : ℤ) (evs : List MotionEvent) :
    0 ≤ (runMotion t0 evs).surfaceQuality ∧
      (runMotion t0 evs).surfaceQuality ≤ 100 := by
  suffices h : ∀ st : MotionState, 0 ≤ st.surfaceQuality → st.surfaceQuality ≤ 100 →
      0 ≤ (evs.foldl motionEventStep st).surfaceQuality ∧
        (evs.foldl motionEventStep st).surfaceQuality ≤ 100 by
    exact h ⟨[], t0, 0, 0⟩ le_rfl (by norm_num)
  induction evs with
  | nil => exact fun st h0 h1 => ⟨h0, h1⟩
  | cons e rest ih =>
    intro st h0 h1
    simp only [List.foldl_cons]
    obtain ⟨g0, g1⟩ := motionEventStep_quality_mem st e h0 h1
    exact ih _ g0 g1

/-- C5: for every nonempty history of at most 10 magnitudes, the
listener's stability equals `clamp(0, 100, 100 - 10 * popVariance)`, where
`popVariance` is the spec's population-variance formula; in particular a
constant history yields exactly 100. -/
theorem spec_c5 (hist : List ℚ) (hne : hist ≠ []) (hlen : hist.length ≤ 10) :
    stabilityOf hist = max 0 (min 100 (100 - 10 * popVariance hist)) ∧
    ∀ m : ℚ, (∀ v ∈ hist, v = m) → stabilityOf hist = 100 := by
  constructor
  · unfold stabilityOf varianceOf meanOf popVariance
    rw [mul_comm]
  · intro m hm
    have hlen0 : (hist.length : ℚ) ≠ 0 :=
      Nat.cast_ne_zero.mpr (List.length_pos.mpr hne).ne'
    have hsum : hist.sum = (hist.length : ℚ) * m := by
      rw [List.sum_eq_card_nsmul hist m hm, nsmul_eq_mul]
    have hmean : meanOf hist = m := by
      rw [meanOf, hsum, mul_div_cancel_left₀ _ hlen0]
    have hvar : varianceOf hist = 0 := by
      unfold varianceOf
      rw [List.sum_eq_zero, zero_div]
      intro v hv
      obtain ⟨u, hu, rfl⟩ := List.mem_map.mp hv
      rw [hm u hu, hmean, sub_self]
      ring
    rw [stabilityOf, hvar]
    norm_num

/-- Witness for C5: a constant three-sample history scores exactly 100. -/
theorem spec_c5_witness : stabilityOf [9, 9, 9] = 100 := by
  refine (spec_c5 [9, 9, 9] (by simp) (by simp)).2 9 ?_
  intro v hv
  simp only [List.mem_cons, List.not_mem_nil, or_false] at hv
  rcases hv with h | h | h <;> exact h

/-- C6: on a throttled gating tick (a sample more than 100 ms after the
previous gating update) `surfaceQuality` moves by +5 clamped at 100
exactly when the freshly computed stability exceeds 70 and
`|z| > 8`, `|x| < 3`, `|y| < 3`, and by −2 clamped at 0 otherwise;
a faster sample leaves it unchanged. -/
theorem spec_c6 (st : MotionState) (s : AccelSample) :
    (100 < s.t - st.lastMotionTime →
      (motionStep st s).surfaceQuality =
        if qualifiesB (stabilityOf (pushHistory st.history s.mag)) s.x s.y s.z
        then min 100 (st.surfaceQuality + 5)
        else max 0 (st.surfaceQuality - 2)) ∧
    (¬ 100 < s.t - st.lastMotionTime →
      (motionStep st s).surfaceQuality = st.surfaceQuality) := by
  constructor
  · intro h
    simp only [motionStep, if_pos h]
    split <;> rfl
  · intro h
    simp only [motionStep, if_neg h]

/-- Witness for C6: a stable, surface-facing sample 200 ms after setup
raises quality from 0 to 5. -/
theorem spec_c6_witness :
    (motionStep ⟨[], 0, 0, 0⟩ ⟨0, 0, 9, 9, 200⟩).surfaceQuality = 5 := by
  have h := (spec_c6 ⟨[], 0, 0, 0⟩ ⟨0, 0, 9, 9, 200⟩).1 (by norm_num)
  rw [h]
  with_unfolding_all decide

/-- C7: a first-time plane enters with confidence exactly 1.0; a
re-observed plane has its centre, normal and bounds replaced and its
confidence set to `min (confidence + 0.1) 1`, which never decreases the
confidence of a plane whose confidence is at most 1. -/
theorem spec_c7 (prior : List DetectedPlane) (o : PlaneObs) (now : ℤ) :
    ((prior.find? fun dp => dp.planeId == o.pid) = none →
      updatePlane prior o now =
        ⟨o.pid, o.center, o.normal, o.boundsW, o.boundsH, 1, now⟩) ∧
    ∀ dp, (prior.find? fun dp => dp.planeId == o.pid) = some dp →
      updatePlane prior o now =
        { dp with
          center := o.center
          normal := o.normal
          boundsW := o.boundsW
          boundsH := o.boundsH
          confidence := min (dp.confidence + 1 / 10) 1
          lastUpdated := now } ∧
      (dp.confidence ≤ 1 → dp.confidence ≤ (updatePlane prior o now).confidence) := by
  constructor
  · intro h
    unfold updatePlane
    rw [h]
  · intro dp h
    unfold updatePlane
    rw [h]
    exact ⟨rfl, fun h1 => le_min (by linarith) h1⟩

/-- Witness for C7: re-observing a half-confidence plane bumps it to
3/5 and does not decrease it. -/
theorem spec_c7_witness :
    (updatePlane [planeHalf] obs5 7).confidence = 3 / 5 ∧
    planeHalf.confidence ≤ (updatePlane [planeHalf] obs5 7).confidence := by
  have h := (spec_c7 [planeHalf] obs5 7).2 planeHalf (by with_unfolding_all decide)
  constructor
  · rw [h.1]
    with_unfolding_all decide
  · exact h.2 (by norm_num [planeHalf])

/-- Both branches of the plane lookup stamp `lastUpdated` with the
current time. -/
theorem updatePlane_lastUpdated (prior : List DetectedPlane) (o : PlaneObs) (now : ℤ) :
    (updatePlane prior o now).lastUpdated = now := by
  unfold updatePlane
  split <;> rfl

/-- A plane whose `lastUpdated` is the evaluation time always passes the
age half of the expiry test, so the test collapses to the confidence
check. -/
theorem planeValid_of_fresh (now : ℤ) (p : DetectedPlane) (h : p.lastUpdated = now) :
    planeValid now p = decide (3 / 10 < p.confidence) := by
  unfold planeValid
  rw [Bool.decide_and, h, sub_self]
  norm_num

/-- Counterexample to C8: a tracked plane only 100 ms old with full
confidence is dropped by the next evaluation simply because it is not
among this frame's reported planes — "every other plane is retained"
fails. -/
theorem spec_c8_cex :
    processPlanes [stalePlane] [] 1000 = [] ∧
    (1000 : ℤ) - stalePlane.lastUpdated < 5000 ∧
    (3 : ℚ) / 10 < stalePlane.confidence := by
  refine ⟨rfl, by norm_num [stalePlane], by norm_num [stalePlane]⟩

/-- C8 (amended): each per-frame evaluation replaces the active set with
the updated versions of exactly the planes reported this frame, filtered
by the confidence test alone — every updated plane carries
`lastUpdated = now`, so the 5000 ms age half of the expiry test never
drops anything; planes not reported this frame are dropped regardless of
age or confidence (the result is built solely from this frame's
observations). -/
theorem spec_c8 (prior : List DetectedPlane) (obss : List PlaneObs) (now : ℤ) :
    processPlanes prior obss now =
      (obss.map fun o => updatePlane prior o now).filter
        (fun p => decide (3 / 10 < p.confidence)) ∧
    ∀ p ∈ processPlanes prior obss now, p.lastUpdated = now := by
  constructor
  · unfold processPlanes
    apply List.filter_congr
    intro p hp
    obtain ⟨o, _, rfl⟩ := List.mem_map.mp hp
    exact planeValid_of_fresh now _ (updatePlane_lastUpdated prior o now)
  · intro p hp
    unfold processPlanes at hp
    obtain ⟨o, _, rfl⟩ := List.mem_map.mp (List.mem_filter.mp hp).1
    exact updatePlane_lastUpdated prior o now

/-- Witness for C8 (amended): a freshly observed plane carries the
evaluation timestamp. -/
theorem spec_c8_witness : (updatePlane [] obs5 7).lastUpdated = 7 :=
  (spec_c8 [] [obs5] 7).2 _ (by with_unfolding_all decide)

/-- If every tracked plane has confidence 1, so does every plane produced
by the per-observation bookkeeping. -/
theorem updatePlane_conf_one (ps : List DetectedPlane)
    (hconf : ∀ p ∈ ps, p.confidence = 1) (o : PlaneObs) (now : ℤ) :
    (updatePlane ps o now).confidence = 1 := by
  unfold updatePlane
  split
  · rfl
  · next dp hdp =>
    have h1 : dp.confidence = 1 := hconf dp (List.mem_of_find?_eq_some hdp)
    simp only [h1]
    rw [min_eq_right (by norm_num)]

/-- Confidence-1 invariant of the reachable plane sets. -/
theorem planesReachable_conf_one (ps : List DetectedPlane)
    (hre : PlanesReachable ps) : ∀ p ∈ ps, p.confidence = 1 := by
  induction hre with
  | nil => intro p hp; cases hp
  | frame h obss now ih =>
    intro p hp
    obtain ⟨o, _, rfl⟩ := List.mem_map.mp (List.mem_filter.mp hp).1
    exact updatePlane_conf_one _ ih o now

/-- C10: every plane in a reachable active set has confidence exactly
1.0, and consequently the `confidence > 0.3` half of the expiry test
never removes a plane: filtering the frame's updated planes by the full
test gives the same set as filtering by the age test alone. -/
theorem spec_c10 (ps : List DetectedPlane) (hre : PlanesReachable ps) :
    (∀ p ∈ ps, p.confidence = 1) ∧
    ∀ (obss : List PlaneObs) (now : ℤ),
      processPlanes ps obss now =
        (obss.map fun o => updatePlane ps o now).filter
          (fun p => decide (now - p.lastUpdated < 5000)) := by
  refine ⟨planesReachable_conf_one ps hre, fun obss now => ?_⟩
  unfold processPlanes
  apply List.filter_congr
  intro p hp
  obtain ⟨o, _, rfl⟩ := List.mem_map.mp hp
  unfold planeValid
  rw [Bool.decide_and, updatePlane_conf_one ps (planesReachable_conf_one ps hre) o now]
  norm_num

/-- Witness for C10: after one frame observing one plane, the tracked
plane has confidence 1. -/
theorem spec_c10_witness :
    (updatePlane [] obs5 0).confidence = 1 :=
  (spec_c10 (processPlanes [] [obs5] 0)
      (PlanesReachable.frame PlanesReachable.nil [obs5] 0)).1 _
    (by with_unfolding_all decide)

/-- Every point the vision detector emits was accepted with texture
variance below 20, so its confidence exceeds 1/2. -/
theorem pointAt_conf {w h : ℕ} {g : ℕ → ℤ} {x y : ℕ} {p : SurfacePoint}
    (hp : pointAt w h g x y = some p) : 1 / 2 < p.confidence := by
  simp only [pointAt] at hp
  split_ifs at hp with h1 h2
  simp only [Option.some.injEq] at hp
  subst hp
  dsimp only
  refine lt_of_lt_of_le (lt_min (by norm_num) (by linarith)) (le_max_right _ _)

/-- C9: every `SurfacePoint` emitted by the vision detector has
confidence strictly above 0.5, so the tap gate's per-point confidence
test never rejects an emitted point: over the detector's output, the
gate's predicate coincides with the distance test alone. -/
theorem spec_c9 (w h : ℕ) (data : ℕ → ℕ) :
    (∀ p ∈ detectSurfaces w h data, 1 / 2 < p.confidence) ∧
    ∀ tx ty : ℚ, nearSurfaceB (detectSurfaces w h data) tx ty =
      (detectSurfaces w h data).any fun p =>
        decide ((p.x - tx) ^ 2 + (p.y - ty) ^ 2 < 1 / 100) := by
  have hconf : ∀ p ∈ detectSurfaces w h data, 1 / 2 < p.confidence := by
    intro p hp
    simp only [detectSurfaces, List.mem_flatMap, List.mem_filterMap] at hp
    obtain ⟨y, _, x, _, hpt⟩ := hp
    exact pointAt_conf hpt
  refine ⟨hconf, fun tx ty => ?_⟩
  unfold nearSurfaceB
  rw [Bool.eq_iff_iff]
  simp only [List.any_eq_true, Bool.and_eq_true, decide_eq_true_eq]
  constructor
  · rintro ⟨p, hp, hd, _⟩
    exact ⟨p, hp, hd⟩
  · rintro ⟨p, hp, hd⟩
    exact ⟨p, hp, hd, hconf p hp⟩

/-- Witness for C9: the point emitted on a uniform 48×48 frame has
confidence above 1/2. -/
theorem spec_c9_witness :
    (1 : ℚ) / 2 < (⟨1 / 3, 1 / 3, 1, 0⟩ : SurfacePoint).confidence :=
  (spec_c9 48 48 (uniformData 100)).1 _ (by with_unfolding_all decide)

/-- On a uniform frame every pixel's stored grayscale byte is `c % 256`. -/
theorem grayAt_uniform (c i : ℕ) : grayAt (uniformData c) i = c % 256 := by
  have e0 : uniformData c (4 * i) = c := by
    unfold uniformData; rw [if_neg (by omega)]
  have e1 : uniformData c (4 * i + 1) = c := by
    unfold uniformData; rw [if_neg (by omega)]
  have e2 : uniformData c (4 * i + 2) = c := by
    unfold uniformData; rw [if_neg (by omega)]
  unfold grayAt
  rw [e0, e1, e2]
  have h1000 : 299 * c + 587 * c + 114 * c = 1000 * c := by ring
  rw [h1000, Nat.mul_div_cancel_left _ (by norm_num)]

/-- On a constant grayscale buffer every grid point passes both tests
(gradients 0, texture variance 0) and is emitted with confidence 1. -/
theorem pointAt_const (w h : ℕ) (g : ℕ → ℤ) (cb : ℤ) (hg : ∀ i, g i = cb) (x y : ℕ) :
    pointAt w h g x y = some ⟨(x : ℚ) / w, (y : ℚ) / h, 1, 0⟩ := by
  unfold pointAt
  simp only [hg, sub_self, abs_zero]
  norm_num

/-- C3: on every constant-colour frame the detector accepts every grid
point — the output is exactly the full grid, each point carrying
confidence exactly 1.0 and squared gradient magnitude 0 (hence gradient
magnitude 0 and, confidence being `(40 - tv)/40 = 1`, texture
variance 0). -/
theorem spec_c3 (w h c : ℕ) :
    detectSurfaces w h (uniformData c) =
      (gridCoords h).flatMap fun y : ℕ => (gridCoords w).map fun x : ℕ =>
        (⟨(x : ℚ) / w, (y : ℚ) / h, 1, 0⟩ : SurfacePoint) := by
  simp only [detectSurfaces]
  have hfun : (fun y : ℕ => (gridCoords w).filterMap fun x : ℕ =>
      pointAt w h (fun i => (grayAt (uniformData c) i : ℤ)) x y) =
      fun y : ℕ => (gridCoords w).map fun x : ℕ =>
        (⟨(x : ℚ) / w, (y : ℚ) / h, 1, 0⟩ : SurfacePoint) := by
    funext y
    have hsome : (fun x : ℕ => pointAt w h (fun i => (grayAt (uniformData c) i : ℤ)) x y) =
        (some ∘ fun x : ℕ => (⟨(x : ℚ) / w, (y : ℚ) / h, 1, 0⟩ : SurfacePoint)) := by
      funext x
      exact pointAt_const w h _ ((c % 256 : ℕ) : ℤ)
        (fun i => by rw [grayAt_uniform]) x y
    rw [hsome, List.filterMap_eq_map]
  rw [hfun]

/-- Membership in the 16-px sampling grid. -/
theorem mem_gridCoords {dim v : ℕ} :
    v ∈ gridCoords dim ↔ 16 ≤ v ∧ v < dim - 16 ∧ v % 16 = 0 := by
  unfold gridCoords
  simp only [List.mem_filter, List.mem_range, decide_eq_true_eq]
  constructor
  · rintro ⟨_, hb⟩
    exact hb
  · intro hb
    exact ⟨by omega, hb⟩

/-- On a stripe frame every pixel's grayscale byte is `255 * (col/16 % 2)`
where `col` is its column. -/
theorem grayAt_stripe (w p : ℕ) : grayAt (stripeData w) p = 255 * (p % w / 16 % 2) := by
  have h4 : 4 * p / 4 = p := by omega
  have e0 : stripeData w (4 * p) = 255 * (p % w / 16 % 2) := by
    unfold stripeData
    rw [if_neg (by omega), h4]
  have e1 : stripeData w (4 * p + 1) = 255 * (p % w / 16 % 2) := by
    unfold stripeData
    rw [if_neg (by omega), show (4 * p + 1) / 4 = p by omega]
  have e2 : stripeData w (4 * p + 2) = 255 * (p % w / 16 % 2) := by
    unfold stripeData
    rw [if_neg (by omega), show (4 * p + 2) / 4 = p by omega]
  unfold grayAt
  rw [e0, e1, e2]
  have hb : p % w / 16 % 2 < 2 := Nat.mod_lt _ (by norm_num)
  have h1000 : 299 * (255 * (p % w / 16 % 2)) + 587 * (255 * (p % w / 16 % 2)) +
      114 * (255 * (p % w / 16 % 2)) = 1000 * (255 * (p % w / 16 % 2)) := by ring
  rw [h1000, Nat.mul_div_cancel_left _ (by norm_num)]
  omega

/-- At a grid point of a stripe frame, the two columns straddled by the
Sobel kernel hold opposite extreme values, so the squared gradient is
1040400 ≥ 900 and the point is rejected. -/
theorem pointAt_stripe (w h x y : ℕ)
    (hx1 : 16 ≤ x) (hx2 : x < w - 16) (hx3 : x % 16 = 0) (hy1 : 16 ≤ y) :
    pointAt w h (fun i => (grayAt (stripeData w) i : ℤ)) x y = none := by
  have hw : 32 < w := by omega
  have hcol : ∀ r c_, c_ < w →
      ((grayAt (stripeData w) (r * w + c_) : ℕ) : ℤ) =
        ((255 * (c_ / 16 % 2) : ℕ) : ℤ) := by
    intro r c_ hc
    have hmod : (r * w + c_) % w = c_ := by
      rw [Nat.add_comm, Nat.add_mul_mod_self_right]
      exact Nat.mod_eq_of_lt hc
    rw [grayAt_stripe, hmod]
  obtain ⟨k, rfl⟩ : ∃ k, x = 16 * k := ⟨x / 16, by omega⟩
  have hk1 : 1 ≤ k := by omega
  have hyw : w ≤ y * w := by
    calc w = 1 * w := (one_mul w).symm
    _ ≤ y * w := Nat.mul_le_mul_right w (by omega)
  have hBm : (y - 1) * w = y * w - w := by rw [Nat.sub_mul, one_mul]
  have hBp : (y + 1) * w = y * w + w := by rw [Nat.add_mul, one_mul]
  have e1 : y * w + 16 * k - w - 1 = (y - 1) * w + (16 * k - 1) := by rw [hBm]; omega
  have e2 : y * w + 16 * k - w + 1 = (y - 1) * w + (16 * k + 1) := by rw [hBm]; omega
  have e3 : y * w + 16 * k - 1 = y * w + (16 * k - 1) := by omega
  have e4 : y * w + 16 * k + 1 = y * w + (16 * k + 1) := by omega
  have e5 : y * w + 16 * k + w - 1 = (y + 1) * w + (16 * k - 1) := by rw [hBp]; omega
  have e6 : y * w + 16 * k + w + 1 = (y + 1) * w + (16 * k + 1) := by rw [hBp]; omega
  have e7 : y * w + 16 * k - w = (y - 1) * w + (16 * k) := by rw [hBm]; omega
  have e8 : y * w + 16 * k + w = (y + 1) * w + (16 * k) := by rw [hBp]; omega
  have c1 : (16 * k - 1) / 16 % 2 = (k - 1) % 2 := by omega
  have c2 : (16 * k + 1) / 16 % 2 = k % 2 := by omega
  have c3 : (16 * k) / 16 % 2 = k % 2 := by omega
  simp only [pointAt]
  rw [e1, e2, e3, e4, e5, e6, e7, e8]
  rw [hcol (y - 1) (16 * k - 1) (by omega), hcol (y - 1) (16 * k + 1) (by omega),
    hcol y (16 * k - 1) (by omega), hcol y (16 * k + 1) (by omega),
    hcol (y + 1) (16 * k - 1) (by omega), hcol (y + 1) (16 * k + 1) (by omega),
    hcol (y - 1) (16 * k) (by omega), hcol (y + 1) (16 * k) (by omega)]
  rw [c1, c2, c3]
  rcases Nat.mod_two_eq_zero_or_one k with hk | hk
  · have hkm : (k - 1) % 2 = 1 := by omega
    rw [hk, hkm]
    rw [if_neg (by push_cast; norm_num)]
  · have hkm : (k - 1) % 2 = 0 := by omega
    rw [hk, hkm]
    rw [if_neg (by push_cast; norm_num)]

/-- Counterexample to C2: on the one-pixel checkerboard frame — adjacent
pixels alternating between the maximally different grayscale values 0 and
255 at every sampled grid point — the Sobel kernel, which samples at ±1
offsets, sees identical values in each of its columns and rows (the
pattern has period 2), so the gradient magnitude is 0, not above 30: the
lone grid point is accepted with confidence 1 (and squared magnitude 0),
and the aggregate confidence is 1, not 0. -/
theorem spec_c2_cex :
    detectSurfaces 48 48 checker48 = [⟨1 / 3, 1 / 3, 1, 0⟩] ∧
    avgConfidence (detectSurfaces 48 48 checker48) = 1 := by
  constructor
  · with_unfolding_all decide
  · with_unfolding_all decide

/-- C2 (amended): a frame presenting a sharp maximal-contrast step edge
at every sampled grid point — vertical stripes of width 16 aligned to the
grid, rather than a one-pixel checkerboard, which the ±1-offset Sobel
kernel cannot see — yields squared gradient magnitude 1040400 > 900
(gradient magnitude > 30) at every grid point, so `detectSurfaces`
returns no `SurfacePoint` and the aggregate confidence is 0. -/
theorem spec_c2 (w h : ℕ) :
    detectSurfaces w h (stripeData w) = [] ∧
    avgConfidence (detectSurfaces w h (stripeData w)) = 0 := by
  have hmain : detectSurfaces w h (stripeData w) = [] := by
    simp only [detectSurfaces]
    rw [List.flatMap_eq_nil_iff]
    intro y hy
    rw [List.filterMap_eq_nil_iff]
    intro x hx
    obtain ⟨hy1, hy2, hy3⟩ := mem_gridCoords.mp hy
    obtain ⟨hx1, hx2, hx3⟩ := mem_gridCoords.mp hx
    exact pointAt_stripe w h x y hx1 hx2 hx3 hy1
  refine ⟨hmain, ?_⟩
  rw [hmain]
  rfl
